import Mathlib

/-!
Verification of the route-gating middleware in `src/middleware.ts`.

The middleware reads the request's pathname, checks it (and then its
"base segment", computed with `substring(0, indexOf("/", 1))`) against a
static route registry mapping path keys to enabled flags, and either
rewrites disabled routes to `/not-found` (preserving the request's
origin) or lets the request pass through.

JavaScript strings are embedded as `List Char`; `indexOf`/`substring`
are embedded with their JavaScript semantics (`indexOf` returns `-1`
when the character is absent; `substring` clamps a negative end index
to `0`). The route registry `routes` is imported by the middleware from
a resources module whose concrete value is outside the verified
sources, so it is modelled as an arbitrary finite association list from
path keys to boolean flags; all results are proved for every registry.
-/

/-- JavaScript strings, embedded as lists of characters. -/
abbrev JSString := List Char

/-- Worker for `String.prototype.indexOf` restricted to a single-character
search string: index (as counted from the original start `i`) of the first
occurrence of `c` in the remaining characters, `-1` if absent. -/
def jsIndexOfCharAux (c : Char) : List Char → Nat → Int
  | [], _ => -1
  | x :: xs, i => if x = c then (i : Int) else jsIndexOfCharAux c xs (i + 1)

/-- `s.indexOf(c, start)` for a single character `c`: the least index
`i ≥ start` with `s[i] = c`, or `-1` when there is none. -/
def jsIndexOfCharFrom (s : JSString) (c : Char) (start : Nat) : Int :=
  jsIndexOfCharAux c (s.drop start) start

/-- `s.substring(0, stop)` with JavaScript clamping: a negative `stop`
becomes `0`, a `stop` beyond the length becomes the length. -/
def jsSubstringTo (s : JSString) (stop : Int) : JSString :=
  s.take stop.toNat

/-- The part of a `NextRequest` the middleware reads: the request URL's
origin (scheme and host, from `req.url`) and its `pathname`. -/
structure NextRequest where
  origin : JSString
  pathname : JSString
deriving DecidableEq

/-- A URL, as produced by `new URL(path, base)` with an absolute-path
first argument: the base's origin together with the given path. -/
structure URL where
  origin : JSString
  pathname : JSString
deriving DecidableEq

/-- The middleware's possible return values: `NextResponse.rewrite(target)`
or `NextResponse.next()`. -/
inductive Directive where
  | rewrite (target : URL)
  | next
deriving DecidableEq

/-- Whether a directive is a rewrite. -/
def Directive.isRewrite : Directive → Bool
  | .rewrite _ => true
  | .next => false

/-- The route registry: a finite mapping from path keys to boolean
enabled flags (`routes` in `src/app/resources`). -/
abbrev Routes := List (JSString × Bool)

/-- `key in routes` together with property access `routes[key]`:
`some flag` when the key is present, `none` otherwise. -/
def lookupRoute : Routes → JSString → Option Bool
  | [], _ => none
  | (k, v) :: rest, key => if k = key then some v else lookupRoute rest key

/-- `new URL("/not-found", req.url)`: the request's origin with the
fixed not-found path. -/
def notFoundURL (req : NextRequest) : URL :=
  ⟨req.origin, "/not-found".data⟩

/-- `pathname.substring(0, pathname.indexOf("/", 1))`: the base segment
the middleware computes in its second check. -/
def basePathname (pathname : JSString) : JSString :=
  jsSubstringTo pathname (jsIndexOfCharFrom pathname '/' 1)

/-- The `middleware` function of `src/middleware.ts`: rewrite to
`/not-found` when the full pathname, or else the base segment, is a key
of the registry whose flag is falsy; otherwise pass through. -/
def middleware (routes : Routes) (req : NextRequest) : Directive :=
  let pathname := req.pathname
  if lookupRoute routes pathname = some false then
    Directive.rewrite (notFoundURL req)
  else
    let bp := basePathname pathname
    if lookupRoute routes bp = some false then
      Directive.rewrite (notFoundURL req)
    else
      Directive.next

/-- The matcher patterns of the exported `config` in `src/middleware.ts`. -/
def config_matcher : List JSString :=
  ["/about".data, "/work/:path*".data, "/blog/:path*".data, "/gallery".data]

/-- The directive that step 1 of the spec's matching algorithm alone
(the full-path check, without the base-segment check) would produce;
stated from the spec's words for comparison with `middleware`. -/
def step1Only (routes : Routes) (req : NextRequest) : Directive :=
  if lookupRoute routes req.pathname = some false then
    Directive.rewrite (notFoundURL req)
  else
    Directive.next

/-- The literal `/:path*` suffix of a zero-or-more-segments matcher
pattern. -/
def pathStarSuffix : JSString := "/:path*".data

/-- Modelled from the spec: the hosting framework's interpretation of a
matcher pattern, which is not part of the verified sources. A pattern
ending in `/:path*` matches its literal part and any nested path under
it; any other pattern matches exactly itself. -/
def patMatches (pat p : JSString) : Bool :=
  if pathStarSuffix.isSuffixOf pat then
    let lit := pat.take (pat.length - pathStarSuffix.length)
    p == lit || (lit ++ ['/']).isPrefixOf p
  else
    p == pat

/-- Modelled from the spec: a path is routed through the middleware
exactly when some configured matcher pattern matches it. -/
def matchesConfig (p : JSString) : Bool :=
  config_matcher.any (fun pat => patMatches pat p)

-- Sanity examples reproducing the spec's scenarios for the registry
-- {"/gallery": false}.
example :
    middleware [("/gallery".data, false)] ⟨"https://a".data, "/gallery".data⟩
      = Directive.rewrite ⟨"https://a".data, "/not-found".data⟩ := by decide

example :
    middleware [("/gallery".data, false)] ⟨"https://a".data, "/gallery/extra".data⟩
      = Directive.rewrite ⟨"https://a".data, "/not-found".data⟩ := by decide

example :
    middleware [("/gallery".data, false)] ⟨"https://a".data, "/about".data⟩
      = Directive.next := by decide

example :
    middleware [("/gallery".data, false)] ⟨"https://a".data, "/work/my-project".data⟩
      = Directive.next := by decide

-- The base segment of a path with no second slash is the empty string.
example : basePathname "/about".data = [] := by decide

/-! ## Helper lemmas -/

theorem jsIndexOfCharAux_of_not_mem {c : Char} {l : List Char} (h : c ∉ l) :
    ∀ i, jsIndexOfCharAux c l i = -1 := by
  induction l with
  | nil => intro i; rfl
  | cons x xs ih =>
    intro i
    simp only [List.mem_cons, not_or] at h
    have hx : ¬ x = c := fun hc => h.1 hc.symm
    simp [jsIndexOfCharAux, hx, ih h.2]

theorem jsIndexOfCharAux_append {c : Char} {l : List Char} (h : c ∉ l) (r : List Char) :
    ∀ i, jsIndexOfCharAux c (l ++ c :: r) i = (i : Int) + l.length := by
  induction l with
  | nil => intro i; simp [jsIndexOfCharAux]
  | cons x xs ih =>
    intro i
    simp only [List.mem_cons, not_or] at h
    have hx : ¬ x = c := fun hc => h.1 hc.symm
    have step : jsIndexOfCharAux c ((x :: xs) ++ c :: r) i
        = jsIndexOfCharAux c (xs ++ c :: r) (i + 1) := by
      show (if x = c then (i : Int) else jsIndexOfCharAux c (xs ++ c :: r) (i + 1)) = _
      rw [if_neg hx]
    rw [step, ih h.2]
    simp only [List.length_cons]
    push_cast
    ring

theorem basePathname_of_no_second_slash {p : JSString} (h : '/' ∉ p.drop 1) :
    basePathname p = [] := by
  unfold basePathname jsSubstringTo jsIndexOfCharFrom
  rw [jsIndexOfCharAux_of_not_mem h]
  rfl

theorem basePathname_base_seg {k : JSString} (hk : '/' ∉ k) (rest : JSString) :
    basePathname ('/' :: k ++ '/' :: rest) = '/' :: k := by
  unfold basePathname jsSubstringTo jsIndexOfCharFrom
  have hdrop : ('/' :: k ++ '/' :: rest).drop 1 = k ++ '/' :: rest := rfl
  rw [hdrop, jsIndexOfCharAux_append hk]
  have ht : (((1 : Nat) : Int) + (k.length : Int)).toNat = k.length + 1 := by omega
  rw [ht]
  show '/' :: (k ++ '/' :: rest).take k.length = '/' :: k
  rw [List.take_left k ('/' :: rest)]

theorem middleware_eq_next {routes : Routes} {req : NextRequest}
    (hfull : lookupRoute routes req.pathname ≠ some false)
    (hbase : lookupRoute routes (basePathname req.pathname) ≠ some false) :
    middleware routes req = Directive.next := by
  simp [middleware, hfull, hbase]

theorem middleware_rewrite_or_next (routes : Routes) (req : NextRequest) :
    middleware routes req = Directive.rewrite (notFoundURL req) ∨
    middleware routes req = Directive.next := by
  by_cases h1 : lookupRoute routes req.pathname = some false
  · exact Or.inl (by simp [middleware, h1])
  · by_cases h2 : lookupRoute routes (basePathname req.pathname) = some false
    · exact Or.inl (by simp [middleware, h1, h2])
    · exact Or.inr (middleware_eq_next h1 h2)

theorem middleware_eq_step1Only {routes : Routes} {req : NextRequest}
    (hbase : lookupRoute routes (basePathname req.pathname) ≠ some false) :
    middleware routes req = step1Only routes req := by
  by_cases h1 : lookupRoute routes req.pathname = some false
  · simp [middleware, step1Only, h1]
  · simp [middleware, step1Only, h1, hbase]

/-- An upper bound on the lengths of the registry's keys, used to build a
path that cannot be a key. -/
def maxKeyLen (routes : Routes) : Nat :=
  routes.foldr (fun kv acc => max kv.1.length acc) 0

theorem lookupRoute_eq_none {routes : Routes} {k : JSString}
    (h : maxKeyLen routes < k.length) : lookupRoute routes k = none := by
  induction routes with
  | nil => rfl
  | cons kv rest ih =>
    obtain ⟨k', v⟩ := kv
    have h' : max k'.length (maxKeyLen rest) < k.length := h
    have h1 : k'.length < k.length := lt_of_le_of_lt (le_max_left _ _) h'
    have h2 : maxKeyLen rest < k.length := lt_of_le_of_lt (le_max_right _ _) h'
    have hne : ¬ k' = k := fun he => absurd (congrArg List.length he) (Nat.ne_of_lt h1)
    simp [lookupRoute, hne, ih h2]

/-! ## Claims -/

/-- C1: for every registry entry mapping a key to a disabled (falsy) flag,
a request whose full path equals that key is rewritten to the not-found
target. -/
theorem c1_disabled_key_full_path_rewrite (routes : Routes) (req : NextRequest)
    (key : JSString) (hkey : lookupRoute routes key = some false)
    (hpath : req.pathname = key) :
    middleware routes req = Directive.rewrite (notFoundURL req) := by
  simp [middleware, hpath, hkey]

theorem c1_witness :
    lookupRoute [("/gallery".data, false)] "/gallery".data = some false ∧
    middleware [("/gallery".data, false)] ⟨"https://a".data, "/gallery".data⟩
      = Directive.rewrite (notFoundURL ⟨"https://a".data, "/gallery".data⟩) :=
  ⟨by decide, c1_disabled_key_full_path_rewrite _ _ "/gallery".data (by decide) rfl⟩

/-- C2: for every registry entry mapping a base-segment key (a leading
slash followed by a slash-free segment) to a disabled flag, a request
whose path is that key followed by `/` and arbitrary nested segments is
rewritten to the not-found target; the base segment of such a path
equals the key. -/
theorem c2_disabled_base_segment_rewrite (routes : Routes) (req : NextRequest)
    (k rest : JSString) (hk : '/' ∉ k)
    (hkey : lookupRoute routes ('/' :: k) = some false)
    (hpath : req.pathname = '/' :: k ++ '/' :: rest) :
    middleware routes req = Directive.rewrite (notFoundURL req) := by
  by_cases hfull : lookupRoute routes req.pathname = some false
  · simp [middleware, hfull]
  · have hb : basePathname req.pathname = '/' :: k := by
      rw [hpath]
      exact basePathname_base_seg hk rest
    simp [middleware, hfull, hb, hkey]

theorem c2_witness :
    lookupRoute [("/gallery".data, false)] ('/' :: "gallery".data) = some false ∧
    middleware [("/gallery".data, false)] ⟨"https://a".data, "/gallery/extra".data⟩
      = Directive.rewrite (notFoundURL ⟨"https://a".data, "/gallery/extra".data⟩) :=
  ⟨by decide,
    c2_disabled_base_segment_rewrite _ _ "gallery".data "extra".data
      (by decide) (by decide) (by decide)⟩

/-- C3 counterexample: for the no-second-slash path `/about`, the base
segment the code computes is the empty string — not the whole path and
not a fallback that compares equal to the full-path case — and with a
registry in which the empty string is a disabled key, step 2 is not a
no-op: the middleware's directive differs from the directive step 1
alone would produce. -/
theorem c3_counterexample :
    basePathname "/about".data ≠ "/about".data ∧
    basePathname "/about".data = [] ∧
    middleware [(([] : JSString), false)] ⟨[], "/about".data⟩
      ≠ step1Only [(([] : JSString), false)] ⟨[], "/about".data⟩ := by
  decide

/-- C3 (amended): for every path with no second `/`, the base-segment
extraction does not fail and yields the empty string; provided the empty
string is not a disabled registry key, step 2 is a no-op and the
middleware's directive equals the directive step 1 alone would
produce. -/
theorem c3_amended_no_second_slash_no_op (routes : Routes) (req : NextRequest)
    (hns : '/' ∉ req.pathname.drop 1)
    (hempty : lookupRoute routes [] ≠ some false) :
    basePathname req.pathname = [] ∧
    middleware routes req = step1Only routes req := by
  have hb := basePathname_of_no_second_slash hns
  exact ⟨hb, middleware_eq_step1Only (by rw [hb]; exact hempty)⟩

theorem c3_amended_witness :
    basePathname "/about".data = [] ∧
    middleware [("/gallery".data, false)] ⟨[], "/about".data⟩
      = step1Only [("/gallery".data, false)] ⟨[], "/about".data⟩ :=
  c3_amended_no_second_slash_no_op _ ⟨[], "/about".data⟩ (by decide) (by decide)

/-- C4: for every registry entry whose flag is enabled, and for every key
absent from the registry, a request whose full path equals that key
passes through, unless the path's base segment separately is a disabled
registry key. -/
theorem c4_enabled_or_absent_full_path_pass (routes : Routes) (req : NextRequest)
    (key : JSString)
    (hkey : lookupRoute routes key = some true ∨ lookupRoute routes key = none)
    (hpath : req.pathname = key)
    (hbase : lookupRoute routes (basePathname req.pathname) ≠ some false) :
    middleware routes req = Directive.next := by
  apply middleware_eq_next _ hbase
  rw [hpath]
  rcases hkey with h | h <;> simp [h]

theorem c4_witness :
    (lookupRoute [("/gallery".data, false)] "/about".data = none) ∧
    middleware [("/gallery".data, false)] ⟨"https://a".data, "/about".data⟩
      = Directive.next :=
  ⟨by decide,
    c4_enabled_or_absent_full_path_pass _ _ "/about".data
      (Or.inr (by decide)) rfl (by decide)⟩

/-- C5: for every path for which neither the full path nor the base
segment is a disabled registry key, the middleware passes the request
through. -/
theorem c5_no_match_pass_through (routes : Routes) (req : NextRequest)
    (hfull : lookupRoute routes req.pathname ≠ some false)
    (hbase : lookupRoute routes (basePathname req.pathname) ≠ some false) :
    middleware routes req = Directive.next :=
  middleware_eq_next hfull hbase

theorem c5_witness :
    lookupRoute [("/gallery".data, false)] "/work/my-project".data ≠ some false ∧
    middleware [("/gallery".data, false)] ⟨"https://a".data, "/work/my-project".data⟩
      = Directive.next :=
  ⟨by decide, c5_no_match_pass_through _ _ (by decide) (by decide)⟩

/-- C6: the middleware is total — every evaluation yields a directive, a
not-found rewrite or a pass-through — and every path, the empty and
malformed ones included, that matches no disabled registry key at the
full-path or base-segment level degrades to the pass-through outcome. -/
theorem c6_total_graceful (routes : Routes) (req : NextRequest) :
    (middleware routes req = Directive.rewrite (notFoundURL req) ∨
      middleware routes req = Directive.next) ∧
    (lookupRoute routes req.pathname ≠ some false →
      lookupRoute routes (basePathname req.pathname) ≠ some false →
      middleware routes req = Directive.next) :=
  ⟨middleware_rewrite_or_next routes req, fun h1 h2 => middleware_eq_next h1 h2⟩

theorem c6_witness :
    middleware [("/gallery".data, false)] ⟨[], []⟩ = Directive.next :=
  (c6_total_graceful [("/gallery".data, false)] ⟨[], []⟩).2 (by decide) (by decide)

/-- C7: the middleware is deterministic — evaluating it twice on the same
registry and request yields the same directive — and the kind of the
directive (rewrite or pass-through) depends only on the request's path
and the registry: requests with equal paths receive directives of equal
kind. -/
theorem c7_deterministic_path_only (routes : Routes) (r1 r2 : NextRequest)
    (h : r1.pathname = r2.pathname) :
    middleware routes r1 = middleware routes r1 ∧
    (middleware routes r1).isRewrite = (middleware routes r2).isRewrite := by
  refine ⟨rfl, ?_⟩
  by_cases h1 : lookupRoute routes r1.pathname = some false
  · have h1' : lookupRoute routes r2.pathname = some false := h ▸ h1
    simp [middleware, h1, h1', Directive.isRewrite]
  · have h1' : ¬ lookupRoute routes r2.pathname = some false := h ▸ h1
    by_cases h2 : lookupRoute routes (basePathname r1.pathname) = some false
    · have h2' : lookupRoute routes (basePathname r2.pathname) = some false := h ▸ h2
      simp [middleware, h1, h1', h2, h2', Directive.isRewrite]
    · have h2' : ¬ lookupRoute routes (basePathname r2.pathname) = some false := h ▸ h2
      simp [middleware, h1, h1', h2, h2', Directive.isRewrite]

theorem c7_witness :
    middleware [("/gallery".data, false)] ⟨"https://a".data, "/gallery".data⟩
      = middleware [("/gallery".data, false)] ⟨"https://a".data, "/gallery".data⟩ ∧
    (middleware [("/gallery".data, false)] ⟨"https://a".data, "/gallery".data⟩).isRewrite
      = (middleware [("/gallery".data, false)] ⟨"https://b".data, "/gallery".data⟩).isRewrite :=
  c7_deterministic_path_only [("/gallery".data, false)]
    ⟨"https://a".data, "/gallery".data⟩ ⟨"https://b".data, "/gallery".data⟩ rfl

/-- C8: on every input the middleware produces one of exactly two
directives — a rewrite whose target preserves the request's origin and
whose path is the fixed `/not-found` route, or a pass-through. -/
theorem c8_output_shape (routes : Routes) (req : NextRequest) :
    middleware routes req = Directive.rewrite ⟨req.origin, "/not-found".data⟩ ∨
    middleware routes req = Directive.next :=
  middleware_rewrite_or_next routes req

/-- C9: a path is matched by the invocation configuration exactly when it
is `/about`, `/work` or any nested path under it, `/blog` or any nested
path under it, or `/gallery`. -/
theorem c9_matcher_characterisation (p : JSString) :
    matchesConfig p = true ↔
      (p = "/about".data ∨
        p = "/work".data ∨ ("/work/".data.isPrefixOf p) = true ∨
        p = "/blog".data ∨ ("/blog/".data.isPrefixOf p) = true ∨
        p = "/gallery".data) := by
  have e1 : patMatches "/about".data p = (p == "/about".data) := rfl
  have e2 : patMatches "/work/:path*".data p
      = (p == "/work".data || ("/work/".data).isPrefixOf p) := rfl
  have e3 : patMatches "/blog/:path*".data p
      = (p == "/blog".data || ("/blog/".data).isPrefixOf p) := rfl
  have e4 : patMatches "/gallery".data p = (p == "/gallery".data) := rfl
  simp only [matchesConfig, config_matcher, List.any_cons, List.any_nil,
    e1, e2, e3, e4, Bool.or_false, Bool.or_eq_true, beq_iff_eq]
  tauto

/-- C10: for every path with no `/` at index 1 or later the base segment
the code computes — `substring(0, -1)` — is the empty string, not the
whole path; and the middleware's directive on such paths equals the
directive of the full-path check alone exactly when the empty string is
not a disabled key of the registry. -/
theorem c10_empty_base_segment :
    (∀ p : JSString, '/' ∉ p.drop 1 → basePathname p = []) ∧
    (∀ routes : Routes,
      (∀ req : NextRequest, '/' ∉ req.pathname.drop 1 →
        middleware routes req = step1Only routes req) ↔
      lookupRoute routes [] ≠ some false) := by
  refine ⟨fun p h => basePathname_of_no_second_slash h, fun routes => ⟨?_, ?_⟩⟩
  · intro hall hempty
    set p : JSString := List.replicate (maxKeyLen routes + 1) 'a' with hp
    have hlen : maxKeyLen routes < p.length := by
      simp [hp, List.length_replicate]
    have hnone : lookupRoute routes p = none := lookupRoute_eq_none hlen
    have hns : '/' ∉ p.drop 1 := by
      intro hmem
      have hmem' : '/' ∈ p := List.drop_subset 1 p hmem
      have := List.eq_of_mem_replicate (hp ▸ hmem')
      exact absurd this (by decide)
    have hbase : basePathname p = [] := basePathname_of_no_second_slash hns
    have hm := hall ⟨[], p⟩ hns
    have h1 : lookupRoute routes p ≠ some false := by simp [hnone]
    have hmw : middleware routes ⟨[], p⟩ = Directive.rewrite (notFoundURL ⟨[], p⟩) := by
      simp [middleware, h1, hbase, hempty]
    have hs1 : step1Only routes ⟨[], p⟩ = Directive.next := by
      simp [step1Only, h1]
    rw [hmw, hs1] at hm
    exact Directive.noConfusion hm
  · intro hempty req hns
    have hb := basePathname_of_no_second_slash hns
    exact middleware_eq_step1Only (by rw [hb]; exact hempty)

theorem c10_witness :
    basePathname "/about".data = [] ∧
    middleware [("/gallery".data, false)] ⟨[], "/work".data⟩
      = step1Only [("/gallery".data, false)] ⟨[], "/work".data⟩ :=
  ⟨c10_empty_base_segment.1 "/about".data (by decide),
    (c10_empty_base_segment.2 [("/gallery".data, false)]).mpr (by decide)
      ⟨[], "/work".data⟩ (by decide)⟩
